import Mathlib

/-!
# Apple USB Target Disk Mode driver: session lifecycle

A shallow embedding of `src/apple_usb_tdm.c` (the attach / detach / suspend /
resume / reset callbacks and the reference-counted session object) together
with theorems about the lifecycle protocol.

Modelling conventions.

* A session object (`struct usb_apple_utdm`) lives in a heap, a list indexed by
  handle.  `kfree(dev)` does not remove the entry: it sets the ghost field
  `freed`, so that the state a destroyed session had can still be inspected.
* The interface is reduced to its driver-data slot (`usb_get_intfdata` /
  `usb_set_intfdata`).
* Every kernel call that matters for the protocol appends an `Event` to the
  world's log, in program order.  Logging calls (`dev_err`, `dev_info`) are not
  recorded.
* Kernel services whose result the driver cannot determine (allocation,
  endpoint discovery, the anchor wait, the storage registration) take their
  outcome from an environment record.
* A callback is a total function `World → World × Status`.  `Status` says
  whether the C function returned (and with which value) or could not return:
  a NULL dereference, a use of a freed session, or `mutex_lock` on a mutex that
  is already held (callbacks of one interface are serialised, the mutex is not
  recursive, and no other code in this file releases it).
-/

namespace AppleUtdm

/-! ## Constants -/

/-- Capacity of the write limiter: `#define WRITES_IN_FLIGHT 8`. -/
def WRITES_IN_FLIGHT : Nat := 8

/-- Kernel errno `ENOMEM`. -/
def ENOMEM : Int := 12

/-- Kernel errno `EPIPE`. -/
def EPIPE : Int := 32

/-! ## Data model -/

/-- The part of `struct usb_endpoint_descriptor` the driver reads:
`bEndpointAddress` (a `__u8`) and the value `usb_endpoint_maxp` reports. -/
structure usb_endpoint_descriptor where
  bEndpointAddress : Nat
  maxp : Nat
  deriving DecidableEq, Repr

/-- The session object `struct usb_apple_utdm`.  Pointers to kernel objects are
reduced to "is allocated / is referenced" booleans; `submitted` lists the
identifiers of the requests currently on the anchor; `io_mutex = true` means
held.  `err_lock`, `bulk_in_wait` and `usdev` are only initialised or passed by
address in the source and carry no state here.  `freed` is ghost state. -/
structure usb_apple_utdm where
  udev : Bool
  interface_ref : Bool
  limit_sem : Nat
  submitted : List Nat
  bulk_in_urb : Bool
  bulk_in_buffer : Bool
  bulk_in_size : Nat
  bulk_in_filled : Nat
  bulk_in_copied : Nat
  bulk_in_endpointAddr : Nat
  bulk_out_endpointAddr : Nat
  errors : Int
  ongoing_read : Bool
  kref : Nat
  io_mutex : Bool
  disconnected : Bool
  freed : Bool
  deriving DecidableEq, Repr

/-- The all-zero object `kzalloc` hands back. -/
def kzalloc : usb_apple_utdm :=
  { udev := false, interface_ref := false, limit_sem := 0, submitted := [],
    bulk_in_urb := false, bulk_in_buffer := false, bulk_in_size := 0,
    bulk_in_filled := 0, bulk_in_copied := 0, bulk_in_endpointAddr := 0,
    bulk_out_endpointAddr := 0, errors := 0, ongoing_read := false, kref := 0,
    io_mutex := false, disconnected := false, freed := false }

/-- Calls observed on a session (argument: its handle) or on the interface. -/
inductive Event where
  | kref_init (dev : Nat)
  | sema_init (dev : Nat) (n : Nat)
  | mutex_init (dev : Nat)
  | init_usb_anchor (dev : Nat)
  | usb_set_intfdata (p : Option Nat)
  | usb_stor_probe1 (dev : Nat) (ret : Int)
  | mutex_lock (dev : Nat)
  | mutex_unlock (dev : Nat)
  | store_disconnected (dev : Nat)
  | store_errors (dev : Nat) (v : Int)
  | usb_wait_anchor_empty_timeout (dev : Nat) (msecs : Nat)
  | usb_kill_anchored_urbs (dev : Nat)
  | usb_kill_urb (dev : Nat)
  | kref_put (dev : Nat)
  | apple_utdm_delete (dev : Nat)
  deriving DecidableEq, Repr

/-- How a callback ended.  `returned r`: the C function returned `r` (`0` for a
`void` function).  The other three: it did not return. -/
inductive Status where
  | returned (retval : Int)
  | null_deref
  | use_after_free
  | deadlock
  deriving DecidableEq, Repr

/-- One interface with the sessions ever allocated for it. -/
structure World where
  heap : List usb_apple_utdm
  intfdata : Option Nat
  log : List Event
  deriving DecidableEq, Repr

/-- Append calls to the log. -/
def World.emit (w : World) (evs : List Event) : World :=
  { w with log := w.log ++ evs }

/-- Write a session back to the heap. -/
def World.store (w : World) (h : Nat) (dev : usb_apple_utdm) : World :=
  { w with heap := w.heap.set h dev }

/-- Follow a session pointer: NULL and freed (or never allocated) objects cannot
be dereferenced. -/
def World.deref (w : World) (p : Option Nat) : Except Status (Nat × usb_apple_utdm) :=
  match p with
  | none => .error .null_deref
  | some h =>
    match w.heap[h]? with
    | none => .error .use_after_free
    | some dev => if dev.freed then .error .use_after_free else .ok (h, dev)

/-- Outcomes of the kernel services `apple_utdm_probe` calls.  `find_retval` is
what `usb_find_common_endpoints` returns; `bulk_in` and `bulk_out` are the
descriptors it hands back when that is `0`.  `usb_stor_probe1_ret` is what the
storage-transport registration returns. -/
structure ProbeEnv where
  kzalloc_ok : Bool
  find_retval : Int
  bulk_in : usb_endpoint_descriptor
  bulk_out : usb_endpoint_descriptor
  kmalloc_ok : Bool
  usb_alloc_urb_ok : Bool
  usb_stor_probe1_ret : Int
  deriving DecidableEq, Repr

/-- Outcome of one anchor wait: `hung r` says that request `r` does not complete
within the timeout; `jiffies_left + 1` is the time left when the anchor
drained (the wait never reports less than 1 in that case). -/
structure WaitEnv where
  hung : Nat → Bool
  jiffies_left : Nat

/-! ## Kernel primitives on a session

Each takes the session and the calls made so far and returns both updated. -/

/-- A session together with the calls made on it so far in this callback. -/
abbrev Sess := usb_apple_utdm × List Event

/-- Take the mutex (the caller has checked that it is free). -/
def mutex_lock (h : Nat) (s : Sess) : Sess :=
  ({ s.1 with io_mutex := true }, s.2 ++ [.mutex_lock h])

/-- Release the mutex; no check that it is held. -/
def mutex_unlock (h : Nat) (s : Sess) : Sess :=
  ({ s.1 with io_mutex := false }, s.2 ++ [.mutex_unlock h])

/-- Cancel every request on the anchor; the anchor is empty afterwards. -/
def usb_kill_anchored_urbs (h : Nat) (s : Sess) : Sess :=
  ({ s.1 with submitted := [] }, s.2 ++ [.usb_kill_anchored_urbs h])

/-- Cancel the inbound read request; no field of the session changes. -/
def usb_kill_urb (h : Nat) (s : Sess) : Sess :=
  (s.1, s.2 ++ [.usb_kill_urb h])

/-- Wait until the anchor is empty or `msecs` elapsed.  The requests that are
not hung complete and leave the anchor.  Returns `0` when the anchor is still
non-empty at the timeout and the time left (at least 1) otherwise. -/
def usb_wait_anchor_empty_timeout (env : WaitEnv) (h : Nat) (msecs : Nat) (s : Sess) :
    Sess × Int :=
  let rest := s.1.submitted.filter env.hung
  (({ s.1 with submitted := rest }, s.2 ++ [.usb_wait_anchor_empty_timeout h msecs]),
   if rest = [] then (env.jiffies_left : Int) + 1 else 0)

/-! ## The driver -/

/-- The destructor `apple_utdm_delete`: frees the read request, drops the
interface and device references, frees the read buffer and the object. -/
def apple_utdm_delete (h : Nat) (s : Sess) : Sess :=
  ({ s.1 with bulk_in_urb := false, interface_ref := false, udev := false,
              bulk_in_buffer := false, freed := true },
   s.2 ++ [.apple_utdm_delete h])

/-- The call `kref_put(&dev->kref, apple_utdm_delete)`: decrement the count and
run the destructor when it reaches zero.  A count that is already zero stays
zero and the destructor is not run. -/
def kref_put (h : Nat) (s : Sess) : Sess :=
  let s1 : Sess := (s.1, s.2 ++ [.kref_put h])
  if s.1.kref = 0 then s1
  else
    let s2 : Sess := ({ s1.1 with kref := s1.1.kref - 1 }, s1.2)
    if s2.1.kref = 0 then apple_utdm_delete h s2 else s2

/-- The label `error:` of `apple_utdm_probe`: one `kref_put`, then return
`retval`.  The new object takes the next free handle; the data slot is left
alone. -/
def probe_error (w : World) (s : Sess) (retval : Int) : World × Status :=
  let s := kref_put w.heap.length s
  ({ heap := w.heap ++ [s.1], intfdata := w.intfdata, log := w.log ++ s.2 },
   .returned retval)

/-- The attach callback `apple_utdm_probe`. -/
def apple_utdm_probe (env : ProbeEnv) (w : World) : World × Status :=
  if env.kzalloc_ok = false then (w, .returned (-ENOMEM))
  else
    let h := w.heap.length
    let dev : usb_apple_utdm :=
      { kzalloc with kref := 1, limit_sem := WRITES_IN_FLIGHT, io_mutex := false,
                     submitted := [] }
    let dev := { dev with udev := true, interface_ref := true }
    let s : Sess :=
      (dev, [.kref_init h, .sema_init h WRITES_IN_FLIGHT, .mutex_init h, .init_usb_anchor h])
    if env.find_retval ≠ 0 then probe_error w s env.find_retval
    else
      let s : Sess :=
        ({ s.1 with bulk_in_size := env.bulk_in.maxp,
                    bulk_in_endpointAddr := env.bulk_in.bEndpointAddress }, s.2)
      if env.kmalloc_ok = false then probe_error w s (-ENOMEM)
      else
        let s : Sess := ({ s.1 with bulk_in_buffer := true }, s.2)
        if env.usb_alloc_urb_ok = false then probe_error w s (-ENOMEM)
        else
          let s : Sess :=
            ({ s.1 with bulk_in_urb := true,
                        bulk_out_endpointAddr := env.bulk_out.bEndpointAddress }, s.2)
          let s : Sess := (s.1, s.2 ++ [.usb_set_intfdata (some h)])
          -- the value of `usb_stor_probe1` is not assigned and not tested
          let s : Sess := (s.1, s.2 ++ [.usb_stor_probe1 h env.usb_stor_probe1_ret])
          ({ heap := w.heap ++ [s.1], intfdata := some h, log := w.log ++ s.2 },
           .returned 0)

/-- The drain procedure `apple_utdm_draw_down`. -/
def apple_utdm_draw_down (env : WaitEnv) (h : Nat) (s : Sess) : Sess :=
  let (s, time) := usb_wait_anchor_empty_timeout env h 1000 s
  let s := if time = 0 then usb_kill_anchored_urbs h s else s
  usb_kill_urb h s

/-- The detach callback `apple_utdm_disconnect`. -/
def apple_utdm_disconnect (w : World) : World × Status :=
  let p := w.intfdata
  let w : World := ({ w with intfdata := none }).emit [.usb_set_intfdata none]
  match w.deref p with
  | .error e => (w, e)
  | .ok (h, dev) =>
    if dev.io_mutex then (w, .deadlock)
    else
      let s : Sess := mutex_lock h (dev, [])
      let s : Sess := ({ s.1 with disconnected := true }, s.2 ++ [.store_disconnected h])
      let s := mutex_unlock h s
      let s := usb_kill_anchored_urbs h s
      let s := kref_put h s
      ((w.store h s.1).emit s.2, .returned 0)

/-- The callback `apple_utdm_suspend`. -/
def apple_utdm_suspend (env : WaitEnv) (w : World) : World × Status :=
  match w.intfdata with
  | none => (w, .returned 0)
  | some h =>
    match w.deref (some h) with
    | .error e => (w, e)
    | .ok (h, dev) =>
      let s := apple_utdm_draw_down env h (dev, [])
      ((w.store h s.1).emit s.2, .returned 0)

/-- The callback `apple_utdm_resume`. -/
def apple_utdm_resume (w : World) : World × Status :=
  (w, .returned 0)

/-- The callback `apple_utdm_pre_reset`. -/
def apple_utdm_pre_reset (env : WaitEnv) (w : World) : World × Status :=
  match w.deref w.intfdata with
  | .error e => (w, e)
  | .ok (h, dev) =>
    if dev.io_mutex then (w, .deadlock)
    else
      let s := mutex_lock h (dev, [])
      let s := apple_utdm_draw_down env h s
      ((w.store h s.1).emit s.2, .returned 0)

/-- The callback `apple_utdm_post_reset`. -/
def apple_utdm_post_reset (w : World) : World × Status :=
  match w.deref w.intfdata with
  | .error e => (w, e)
  | .ok (h, dev) =>
    let s : Sess := ({ dev with errors := -EPIPE }, [.store_errors h (-EPIPE)])
    let s := mutex_unlock h s
    ((w.store h s.1).emit s.2, .returned 0)

/-! ## Traces of callbacks -/

/-- One invocation of a callback by the host stack, with the environment it
meets. -/
inductive Hook where
  | probe (env : ProbeEnv)
  | disconnect
  | suspend (env : WaitEnv)
  | resume
  | pre_reset (env : WaitEnv)
  | post_reset

/-- Run one callback. -/
def step : Hook → World → World × Status
  | .probe env, w => apple_utdm_probe env w
  | .disconnect, w => apple_utdm_disconnect w
  | .suspend env, w => apple_utdm_suspend env w
  | .resume, w => apple_utdm_resume w
  | .pre_reset env, w => apple_utdm_pre_reset env w
  | .post_reset, w => apple_utdm_post_reset w

/-- Run callbacks one after the other for as long as they return.  The status
is that of the last callback run. -/
def run : List Hook → World × Status → World × Status
  | [], r => r
  | k :: ks, (w, .returned _) => run ks (step k w)
  | _ :: _, (w, s) => (w, s)

/-- Run a trace from a world in which nothing has failed yet. -/
def exec (ks : List Hook) (w : World) : World × Status :=
  run ks (w, .returned 0)

/-! ## Predicates used in the statements -/

/-- A bound session: the data slot points to a live object that still holds
the reference taken by attach. -/
def Bound (w : World) (h : Nat) (dev : usb_apple_utdm) : Prop :=
  w.intfdata = some h ∧ w.heap[h]? = some dev ∧ dev.freed = false ∧ 1 ≤ dev.kref

/-- One stretch of the life of a bound session between attach and detach: a
suspend, a resume, or a reset (`pre_reset` followed by its `post_reset`). -/
inductive Phase where
  | suspend (env : WaitEnv)
  | resume
  | reset (env : WaitEnv)

/-- The callbacks the host stack makes for one phase. -/
def Phase.hooks : Phase → List Hook
  | .suspend env => [.suspend env]
  | .resume => [.resume]
  | .reset env => [.pre_reset env, .post_reset]

/-- The callbacks made for a sequence of phases. -/
def hooksOf : List Phase → List Hook
  | [] => []
  | p :: ps => p.hooks ++ hooksOf ps

/-- How many times the destructor ran on session `h` according to a log. -/
def deletes (h : Nat) (log : List Event) : Nat :=
  log.count (.apple_utdm_delete h)

/-- The session `h` is bound, live, holds exactly the attach reference, its
mutex is in state `m`, and the destructor ran `n` times on it so far. -/
def Alive (w : World) (h : Nat) (n : Nat) (m : Bool) : Prop :=
  ∃ dev, w.intfdata = some h ∧ w.heap[h]? = some dev ∧ dev.freed = false ∧
    dev.kref = 1 ∧ dev.io_mutex = m ∧ deletes h w.log = n

theorem heap_lt_of_get {w : World} {h : Nat} {dev : usb_apple_utdm}
    (hd : w.heap[h]? = some dev) : h < w.heap.length := by
  by_contra hc
  rw [List.getElem?_eq_none (by omega)] at hd
  cases hd

/-! ## C1: detach -/

/-- C1: on a bound session whose `io_mutex` is free, `apple_utdm_disconnect`
returns after clearing the data slot and performing, in this order,
`mutex_lock`, the store `disconnected = 1`, `mutex_unlock`, one
`usb_kill_anchored_urbs` on the anchor and one `kref_put` (which runs the
destructor when the count was 1).  In the resulting state of the session
`disconnected` is set, `io_mutex` is free, the anchor is empty and the count is
one lower than before. -/
theorem disconnect_sequence (w : World) (h : Nat) (dev : usb_apple_utdm)
    (hb : Bound w h dev) (hfree : dev.io_mutex = false) :
    (apple_utdm_disconnect w).2 = .returned 0 ∧
    (apple_utdm_disconnect w).1.intfdata = none ∧
    (apple_utdm_disconnect w).1.log =
      w.log ++ [.usb_set_intfdata none, .mutex_lock h, .store_disconnected h,
                .mutex_unlock h, .usb_kill_anchored_urbs h, .kref_put h]
            ++ (if dev.kref = 1 then [.apple_utdm_delete h] else []) ∧
    ∃ dev', (apple_utdm_disconnect w).1.heap[h]? = some dev' ∧
      dev'.disconnected = true ∧ dev'.io_mutex = false ∧ dev'.submitted = [] ∧
      dev'.kref + 1 = dev.kref ∧ dev'.freed = decide (dev.kref = 1) := by
  have hlt := heap_lt_of_get hb.2.1
  obtain ⟨h1, h2, h3, h4⟩ := hb
  have hk : dev.kref ≠ 0 := by omega
  by_cases hone : dev.kref = 1
  · simp [apple_utdm_disconnect, World.deref, World.emit, World.store, mutex_lock,
      mutex_unlock, usb_kill_anchored_urbs, kref_put, apple_utdm_delete, h1, h2, h3,
      hfree, hone, hlt]
  · have hk2 : dev.kref - 1 ≠ 0 := by omega
    have hk3 : dev.kref - 1 + 1 = dev.kref := by omega
    simp [apple_utdm_disconnect, World.deref, World.emit, World.store, mutex_lock,
      mutex_unlock, usb_kill_anchored_urbs, kref_put, apple_utdm_delete, h1, h2, h3,
      hfree, hone, hlt, hk, hk2, hk3]

/-- Witness for C1: a live bound session with count 1, two requests on the
anchor and a free mutex. -/
theorem disconnect_sequence_witness :
    (apple_utdm_disconnect
        ⟨[{ kzalloc with kref := 1, submitted := [3, 7] }], some 0, []⟩).1.log =
      [] ++ [.usb_set_intfdata none, .mutex_lock 0, .store_disconnected 0,
             .mutex_unlock 0, .usb_kill_anchored_urbs 0, .kref_put 0]
         ++ [.apple_utdm_delete 0] :=
  (disconnect_sequence ⟨[{ kzalloc with kref := 1, submitted := [3, 7] }], some 0, []⟩ 0
    { kzalloc with kref := 1, submitted := [3, 7] } ⟨rfl, rfl, rfl, by decide⟩ rfl).2.2.1

/-! ## C3: successful attach -/

/-- C3: when `kzalloc`, endpoint discovery, `kmalloc` and `usb_alloc_urb` all
succeed, `apple_utdm_probe` returns 0 (whatever `usb_stor_probe1` returned) and
the data slot points to a new session with count 1, `disconnected` clear,
semaphore count 8, `bulk_in_size` the inbound endpoint's maximum packet size,
both read offsets 0, no read going on, `errors` 0 and the two endpoint
addresses those of the discovered descriptors. -/
theorem probe_success (env : ProbeEnv) (w : World)
    (hz : env.kzalloc_ok = true) (hf : env.find_retval = 0)
    (hm : env.kmalloc_ok = true) (hu : env.usb_alloc_urb_ok = true) :
    (apple_utdm_probe env w).2 = .returned 0 ∧
    (apple_utdm_probe env w).1.intfdata = some w.heap.length ∧
    ∃ dev, (apple_utdm_probe env w).1.heap[w.heap.length]? = some dev ∧
      dev.kref = 1 ∧ dev.disconnected = false ∧ dev.limit_sem = 8 ∧
      dev.limit_sem = WRITES_IN_FLIGHT ∧
      dev.bulk_in_size = env.bulk_in.maxp ∧
      dev.bulk_in_filled = 0 ∧ dev.bulk_in_copied = 0 ∧
      dev.ongoing_read = false ∧ dev.errors = 0 ∧
      dev.bulk_in_endpointAddr = env.bulk_in.bEndpointAddress ∧
      dev.bulk_out_endpointAddr = env.bulk_out.bEndpointAddress ∧
      dev.io_mutex = false ∧ dev.freed = false := by
  simp [apple_utdm_probe, hz, hf, hm, hu, kzalloc, WRITES_IN_FLIGHT]

/-- Witness for C3: a device with a 512-byte inbound endpoint at address 0x81
and an outbound endpoint at 0x02, attached in the empty world, even though the
storage registration reports `-ENOMEM`. -/
theorem probe_success_witness :
    (apple_utdm_probe ⟨true, 0, ⟨129, 512⟩, ⟨2, 512⟩, true, true, -12⟩ ⟨[], none, []⟩).2
        = .returned 0 ∧
    (apple_utdm_probe ⟨true, 0, ⟨129, 512⟩, ⟨2, 512⟩, true, true, -12⟩ ⟨[], none, []⟩).1.intfdata
        = some 0 :=
  have h := probe_success ⟨true, 0, ⟨129, 512⟩, ⟨2, 512⟩, true, true, -12⟩ ⟨[], none, []⟩
    rfl rfl rfl rfl
  ⟨h.1, h.2.1⟩

/-! ## C4: draw-down -/

/-- C4: `apple_utdm_draw_down` makes exactly these calls: one anchor wait with a
timeout of 1000 ms, then `usb_kill_anchored_urbs` if and only if the wait
returned 0, then `usb_kill_urb` on the read request.  The wait returns 0
exactly when some request on the anchor is still outstanding at the timeout; so
forced cancellation of the anchor is not invoked when every request completes
in time and is invoked exactly once when at least one does not. -/
theorem draw_down_cancels_iff_timeout (env : WaitEnv) (h : Nat) (s : Sess) :
    (apple_utdm_draw_down env h s).2 =
      s.2 ++ [.usb_wait_anchor_empty_timeout h 1000]
          ++ (if (usb_wait_anchor_empty_timeout env h 1000 s).2 = 0
              then [.usb_kill_anchored_urbs h] else [])
          ++ [.usb_kill_urb h] ∧
    ((apple_utdm_draw_down env h (s.1, [])).2.count (.usb_kill_anchored_urbs h) = 1 ↔
      (usb_wait_anchor_empty_timeout env h 1000 s).2 = 0) ∧
    ((usb_wait_anchor_empty_timeout env h 1000 s).2 = 0 ↔
      ∃ r, r ∈ s.1.submitted ∧ env.hung r = true) ∧
    ((∀ r, r ∈ s.1.submitted → env.hung r = false) →
      (apple_utdm_draw_down env h (s.1, [])).2.count (.usb_kill_anchored_urbs h) = 0) ∧
    ((∃ r, r ∈ s.1.submitted ∧ env.hung r = true) →
      (apple_utdm_draw_down env h (s.1, [])).2.count (.usb_kill_anchored_urbs h) = 1) ∧
    (apple_utdm_draw_down env h s).1.submitted = [] := by
  have hpos : ¬ (env.jiffies_left : Int) + 1 = 0 := by omega
  by_cases hr : s.1.submitted.filter env.hung = []
  · have hall : ∀ r, r ∈ s.1.submitted → env.hung r = false := by
      intro r hmem
      by_contra hc
      have : r ∈ s.1.submitted.filter env.hung := by
        simp [List.mem_filter, hmem, hc]
      rw [hr] at this
      cases this
    have hnex : ¬ ∃ r, r ∈ s.1.submitted ∧ env.hung r = true := by
      rintro ⟨r, hmem, ht⟩
      rw [hall r hmem] at ht
      cases ht
    simp [apple_utdm_draw_down, usb_wait_anchor_empty_timeout, usb_kill_anchored_urbs,
      usb_kill_urb, hr, hpos, hnex]
  · have hex : ∃ r, r ∈ s.1.submitted ∧ env.hung r = true := by
      obtain ⟨r, hmem⟩ := List.exists_mem_of_ne_nil _ hr
      exact ⟨r, (List.mem_filter.mp hmem).1, (List.mem_filter.mp hmem).2⟩
    have hnall : ¬ ∀ r, r ∈ s.1.submitted → env.hung r = false := by
      intro hall
      obtain ⟨r, hmem, ht⟩ := hex
      rw [hall r hmem] at ht
      cases ht
    simp [apple_utdm_draw_down, usb_wait_anchor_empty_timeout, usb_kill_anchored_urbs,
      usb_kill_urb, hr, hex, hnall]

/-- Witness for C4: two requests on the anchor, request 7 hangs. -/
theorem draw_down_cancels_iff_timeout_witness :
    (apple_utdm_draw_down ⟨fun r => r == 7, 0⟩ 0
        ({ kzalloc with submitted := [3, 7] }, [])).2.count (.usb_kill_anchored_urbs 0) = 1 :=
  (draw_down_cancels_iff_timeout ⟨fun r => r == 7, 0⟩ 0
      ({ kzalloc with submitted := [3, 7] }, [])).2.2.2.2.1 ⟨7, by decide, by decide⟩

/-! ## The callbacks on a bound session -/

theorem draw_down_fst (env : WaitEnv) (h : Nat) (s : Sess) :
    (apple_utdm_draw_down env h s).1 = { s.1 with submitted := [] } := by
  have hpos : ¬ (env.jiffies_left : Int) + 1 = 0 := by omega
  by_cases hr : s.1.submitted.filter env.hung = []
  · simp [apple_utdm_draw_down, usb_wait_anchor_empty_timeout, usb_kill_anchored_urbs,
      usb_kill_urb, hr, hpos]
  · simp [apple_utdm_draw_down, usb_wait_anchor_empty_timeout, usb_kill_anchored_urbs,
      usb_kill_urb, hr]

theorem draw_down_snd (env : WaitEnv) (h : Nat) (s : Sess) :
    (apple_utdm_draw_down env h s).2 =
      s.2 ++ [.usb_wait_anchor_empty_timeout h 1000]
          ++ (if s.1.submitted.filter env.hung = [] then [] else [.usb_kill_anchored_urbs h])
          ++ [.usb_kill_urb h] := by
  have hpos : ¬ (env.jiffies_left : Int) + 1 = 0 := by omega
  by_cases hr : s.1.submitted.filter env.hung = []
  · simp [apple_utdm_draw_down, usb_wait_anchor_empty_timeout, usb_kill_anchored_urbs,
      usb_kill_urb, hr, hpos]
  · simp [apple_utdm_draw_down, usb_wait_anchor_empty_timeout, usb_kill_anchored_urbs,
      usb_kill_urb, hr]

theorem bound_store {w : World} {h : Nat} {dev : usb_apple_utdm} (hb : Bound w h dev)
    (dev1 : usb_apple_utdm) (evs : List Event) (hl : dev1.freed = false)
    (hk : 1 ≤ dev1.kref) : Bound ((w.store h dev1).emit evs) h dev1 := by
  have hlt := heap_lt_of_get hb.2.1
  refine ⟨?_, ?_, hl, hk⟩
  · simpa [World.store, World.emit] using hb.1
  · simp [World.store, World.emit, hlt]

theorem suspend_bound {w : World} {h : Nat} {dev : usb_apple_utdm} (h1 : w.intfdata = some h)
    (h2 : w.heap[h]? = some dev) (h3 : dev.freed = false)
    (env : WaitEnv) :
    apple_utdm_suspend env w =
      ((w.store h { dev with submitted := [] }).emit
          (apple_utdm_draw_down env h (dev, [])).2, .returned 0) := by
  simp [apple_utdm_suspend, World.deref, h1, h2, h3, draw_down_fst]

theorem pre_reset_bound {w : World} {h : Nat} {dev : usb_apple_utdm} (h1 : w.intfdata = some h)
    (h2 : w.heap[h]? = some dev) (h3 : dev.freed = false)
    (hfree : dev.io_mutex = false) (env : WaitEnv) :
    apple_utdm_pre_reset env w =
      ((w.store h { dev with io_mutex := true, submitted := [] }).emit
          (apple_utdm_draw_down env h ({ dev with io_mutex := true }, [.mutex_lock h])).2,
        .returned 0) := by
    simp [apple_utdm_pre_reset, World.deref, h1, h2, h3, hfree, draw_down_fst, mutex_lock]

theorem pre_reset_held {w : World} {h : Nat} {dev : usb_apple_utdm} (h1 : w.intfdata = some h)
    (h2 : w.heap[h]? = some dev) (h3 : dev.freed = false)
    (hheld : dev.io_mutex = true) (env : WaitEnv) :
    apple_utdm_pre_reset env w = (w, .deadlock) := by
    simp [apple_utdm_pre_reset, World.deref, h1, h2, h3, hheld]

theorem post_reset_bound {w : World} {h : Nat} {dev : usb_apple_utdm} (h1 : w.intfdata = some h)
    (h2 : w.heap[h]? = some dev) (h3 : dev.freed = false) :
    apple_utdm_post_reset w =
      ((w.store h { dev with errors := -EPIPE, io_mutex := false }).emit
          [.store_errors h (-EPIPE), .mutex_unlock h], .returned 0) := by
    simp [apple_utdm_post_reset, World.deref, h1, h2, h3, mutex_unlock]

/-! ## C6: the reset pair -/

/-- C6: on a bound session whose `io_mutex` is free, `apple_utdm_pre_reset`
takes `io_mutex`, runs the draw-down and returns 0 with `io_mutex` still held;
`apple_utdm_post_reset` called next stores `-EPIPE` in `errors`, releases
`io_mutex` and returns 0.  After the pair `io_mutex` is free, `errors` is
`-EPIPE`, and `disconnected`, the count, both endpoint addresses and the read
buffer's size and offsets are what they were. -/
theorem reset_pair (env : WaitEnv) (w : World) (h : Nat) (dev : usb_apple_utdm)
    (hb : Bound w h dev) (hfree : dev.io_mutex = false) :
    (apple_utdm_pre_reset env w).2 = .returned 0 ∧
    (apple_utdm_pre_reset env w).1.log =
      w.log ++ [.mutex_lock h, .usb_wait_anchor_empty_timeout h 1000]
          ++ (if dev.submitted.filter env.hung = [] then [] else [.usb_kill_anchored_urbs h])
          ++ [.usb_kill_urb h] ∧
    (∃ dev1, (apple_utdm_pre_reset env w).1.heap[h]? = some dev1 ∧ dev1.io_mutex = true) ∧
    (apple_utdm_post_reset (apple_utdm_pre_reset env w).1).2 = .returned 0 ∧
    (apple_utdm_post_reset (apple_utdm_pre_reset env w).1).1.log =
      (apple_utdm_pre_reset env w).1.log ++ [.store_errors h (-EPIPE), .mutex_unlock h] ∧
    (apple_utdm_post_reset (apple_utdm_pre_reset env w).1).1.intfdata = some h ∧
    ∃ dev2, (apple_utdm_post_reset (apple_utdm_pre_reset env w).1).1.heap[h]? = some dev2 ∧
      dev2.io_mutex = false ∧ dev2.errors = -EPIPE ∧ dev2.errors = -32 ∧
      dev2.disconnected = dev.disconnected ∧ dev2.kref = dev.kref ∧
      dev2.bulk_in_endpointAddr = dev.bulk_in_endpointAddr ∧
      dev2.bulk_out_endpointAddr = dev.bulk_out_endpointAddr ∧
      dev2.bulk_in_size = dev.bulk_in_size ∧
      dev2.bulk_in_filled = dev.bulk_in_filled ∧
      dev2.bulk_in_copied = dev.bulk_in_copied ∧ dev2.freed = false := by
  have hlt := heap_lt_of_get hb.2.1
  have hpre := pre_reset_bound hb.1 hb.2.1 hb.2.2.1 hfree env
  have hb1 : Bound (apple_utdm_pre_reset env w).1 h
      { dev with io_mutex := true, submitted := [] } := by
    rw [hpre]
    exact bound_store hb _ _ hb.2.2.1 hb.2.2.2
  have hpost := post_reset_bound hb1.1 hb1.2.1 hb1.2.2.1
  rw [hpost]
  rw [hpre]
  simp [World.store, World.emit, draw_down_snd, hlt, EPIPE, hb.1, hb.2.2.1]

/-- Witness for C6: a live bound session with count 1 and a free mutex, with a
wait that drains at once. -/
theorem reset_pair_witness :
    (apple_utdm_post_reset (apple_utdm_pre_reset ⟨fun _ => false, 5⟩
        ⟨[{ kzalloc with kref := 1 }], some 0, []⟩).1).2 = .returned 0 :=
  (reset_pair ⟨fun _ => false, 5⟩ ⟨[{ kzalloc with kref := 1 }], some 0, []⟩ 0
    { kzalloc with kref := 1 } ⟨rfl, rfl, rfl, by decide⟩ rfl).2.2.2.1

/-! ## C2: attach failures -/

theorem kref_put_last (h : Nat) (dev : usb_apple_utdm) (evs : List Event)
    (hk : dev.kref = 1) :
    kref_put h (dev, evs) =
      ({ dev with kref := 0, bulk_in_urb := false, interface_ref := false, udev := false,
                  bulk_in_buffer := false, freed := true },
       evs ++ [.kref_put h, .apple_utdm_delete h]) := by
  simp [kref_put, apple_utdm_delete, hk]

/-- Attach failures that reach the label `error:` (endpoint discovery, read
buffer, read request): `apple_utdm_probe` returns a non-zero code, does exactly
one `kref_put` on the new session, which destroys it, and leaves the data slot
as it was. -/
theorem probe_failure_releases (env : ProbeEnv) (w : World)
    (hz : env.kzalloc_ok = true)
    (hfail : env.find_retval ≠ 0 ∨ env.kmalloc_ok = false ∨ env.usb_alloc_urb_ok = false) :
    (∃ r, (apple_utdm_probe env w).2 = .returned r ∧ r ≠ 0) ∧
    (apple_utdm_probe env w).1.intfdata = w.intfdata ∧
    (apple_utdm_probe env w).1.log =
      w.log ++ [.kref_init w.heap.length, .sema_init w.heap.length WRITES_IN_FLIGHT,
                .mutex_init w.heap.length, .init_usb_anchor w.heap.length,
                .kref_put w.heap.length, .apple_utdm_delete w.heap.length] ∧
    ∃ dev, (apple_utdm_probe env w).1.heap[w.heap.length]? = some dev ∧
      dev.kref = 0 ∧ dev.freed = true := by
  by_cases hf : env.find_retval = 0
  · by_cases hm : env.kmalloc_ok = true
    · have hu : env.usb_alloc_urb_ok = false := by
        rcases hfail with h1 | h1 | h1
        · exact absurd hf h1
        · rw [hm] at h1; cases h1
        · exact h1
      simp [apple_utdm_probe, probe_error, kref_put_last, hz, hf, hm, hu, kzalloc, ENOMEM]
    · have hm2 : env.kmalloc_ok = false := by simpa using hm
      simp [apple_utdm_probe, probe_error, kref_put_last, hz, hf, hm2, kzalloc, ENOMEM]
  · simp [apple_utdm_probe, probe_error, kref_put_last, hz, hf, kzalloc]

/-- C2, at the failing input: endpoint discovery and every allocation succeed
and the storage registration `usb_stor_probe1` fails with `-ENOMEM`.
`apple_utdm_probe` still returns 0, makes no `kref_put`, and the data slot
keeps the live session with count 1. -/
theorem probe_ignores_registration_failure :
    (apple_utdm_probe ⟨true, 0, ⟨129, 512⟩, ⟨2, 512⟩, true, true, -ENOMEM⟩
        ⟨[], none, []⟩).2 = .returned 0 ∧
    (apple_utdm_probe ⟨true, 0, ⟨129, 512⟩, ⟨2, 512⟩, true, true, -ENOMEM⟩
        ⟨[], none, []⟩).1.intfdata = some 0 ∧
    (apple_utdm_probe ⟨true, 0, ⟨129, 512⟩, ⟨2, 512⟩, true, true, -ENOMEM⟩
        ⟨[], none, []⟩).1.log.count (.kref_put 0) = 0 ∧
    (apple_utdm_probe ⟨true, 0, ⟨129, 512⟩, ⟨2, 512⟩, true, true, -ENOMEM⟩
        ⟨[], none, []⟩).1.log =
      [.kref_init 0, .sema_init 0 8, .mutex_init 0, .init_usb_anchor 0,
       .usb_set_intfdata (some 0), .usb_stor_probe1 0 (-12)] ∧
    ((apple_utdm_probe ⟨true, 0, ⟨129, 512⟩, ⟨2, 512⟩, true, true, -ENOMEM⟩
        ⟨[], none, []⟩).1.heap[0]?).map (fun dev => (dev.kref, dev.freed))
      = some (1, false) := by
  decide

/-! ## C8: detach without a session -/

/-- C9, as stated, fails: after a successful attach and one
`apple_utdm_pre_reset` the session's `io_mutex` is held, and a further
`apple_utdm_pre_reset` does not return 0: its `mutex_lock` never returns. -/
theorem pre_reset_twice_does_not_return :
    (exec [.probe ⟨true, 0, ⟨129, 512⟩, ⟨2, 512⟩, true, true, 0⟩,
           .pre_reset ⟨fun _ => false, 0⟩] ⟨[], none, []⟩).2 = .returned 0 ∧
    (apple_utdm_pre_reset ⟨fun _ => false, 0⟩
      (exec [.probe ⟨true, 0, ⟨129, 512⟩, ⟨2, 512⟩, true, true, 0⟩,
             .pre_reset ⟨fun _ => false, 0⟩] ⟨[], none, []⟩).1).2 = .deadlock ∧
    (apple_utdm_pre_reset ⟨fun _ => false, 0⟩
      (exec [.probe ⟨true, 0, ⟨129, 512⟩, ⟨2, 512⟩, true, true, 0⟩,
             .pre_reset ⟨fun _ => false, 0⟩] ⟨[], none, []⟩).1).2 ≠ .returned 0 := by
  decide

/-- C9, amended: for every outcome of the draw-down wait,
`apple_utdm_suspend` returns 0 both when the interface holds no session (the
world is then left exactly as it was) and on every bound session;
`apple_utdm_resume` returns 0 and changes nothing in any world;
`apple_utdm_post_reset` returns 0 on every bound session;
`apple_utdm_pre_reset` returns 0 on every bound session whose `io_mutex` is
free, and does not return on one whose `io_mutex` is held. -/
theorem power_hooks_return_zero (env : WaitEnv) (w : World) :
    (w.intfdata = none → apple_utdm_suspend env w = (w, .returned 0)) ∧
    apple_utdm_resume w = (w, .returned 0) ∧
    (∀ h dev, Bound w h dev →
      (apple_utdm_suspend env w).2 = .returned 0 ∧
      (apple_utdm_post_reset w).2 = .returned 0 ∧
      (dev.io_mutex = false → (apple_utdm_pre_reset env w).2 = .returned 0) ∧
      (dev.io_mutex = true → apple_utdm_pre_reset env w = (w, .deadlock))) := by
  refine ⟨?_, rfl, ?_⟩
  · intro hw
    simp [apple_utdm_suspend, hw]
  · intro h dev hb
    refine ⟨?_, ?_, ?_, ?_⟩
    · rw [suspend_bound hb.1 hb.2.1 hb.2.2.1]
    · rw [post_reset_bound hb.1 hb.2.1 hb.2.2.1]
    · intro hfree
      rw [pre_reset_bound hb.1 hb.2.1 hb.2.2.1 hfree]
    · intro hheld
      exact pre_reset_held hb.1 hb.2.1 hb.2.2.1 hheld env

/-- Witness for C9 (amended): a live session with count 1 and a free mutex,
with a wait that times out on request 4. -/
theorem power_hooks_return_zero_witness :
    (apple_utdm_pre_reset ⟨fun _ => true, 0⟩
      ⟨[{ kzalloc with kref := 1, submitted := [4] }], some 0, []⟩).2 = .returned 0 ∧
    apple_utdm_suspend ⟨fun _ => true, 0⟩ ⟨[], none, []⟩ = (⟨[], none, []⟩, .returned 0) :=
  ⟨((power_hooks_return_zero ⟨fun _ => true, 0⟩
      ⟨[{ kzalloc with kref := 1, submitted := [4] }], some 0, []⟩).2.2 0
      { kzalloc with kref := 1, submitted := [4] } ⟨rfl, rfl, rfl, by decide⟩).2.2.1 rfl,
   (power_hooks_return_zero ⟨fun _ => true, 0⟩ ⟨[], none, []⟩).1 rfl⟩

/-! ## C7: the `disconnected` flag -/

theorem disconnect_live {w : World} {h : Nat} {dev : usb_apple_utdm}
    (h1 : w.intfdata = some h) (h2 : w.heap[h]? = some dev) (h3 : dev.freed = false)
    (hfree : dev.io_mutex = false) :
    apple_utdm_disconnect w =
      (((({ w with intfdata := none } : World).emit [.usb_set_intfdata none]).store h
          (kref_put h ({ dev with io_mutex := false, disconnected := true, submitted := [] },
            [.mutex_lock h, .store_disconnected h, .mutex_unlock h,
             .usb_kill_anchored_urbs h])).1).emit
          (kref_put h ({ dev with io_mutex := false, disconnected := true, submitted := [] },
            [.mutex_lock h, .store_disconnected h, .mutex_unlock h,
             .usb_kill_anchored_urbs h])).2, .returned 0) := by
  simp [apple_utdm_disconnect, World.deref, World.emit, h1, h2, h3, hfree, mutex_lock,
    mutex_unlock, usb_kill_anchored_urbs]

theorem run_stuck (ks : List Hook) (w : World) (s : Status)
    (hs : ∀ r, s ≠ .returned r) : run ks (w, s) = (w, s) := by
  cases ks with
  | nil => rfl
  | cons k ks =>
    cases s with
    | returned r => exact absurd rfl (hs r)
    | null_deref => rfl
    | use_after_free => rfl
    | deadlock => rfl

theorem run_append (a b : List Hook) : ∀ r : World × Status,
    run (a ++ b) r = run b (run a r) := by
  induction a with
  | nil => intro r; rfl
  | cons k a ih =>
    rintro ⟨w, s⟩
    cases s with
    | returned v => exact ih _
    | null_deref => simp [run, run_stuck]
    | use_after_free => simp [run, run_stuck]
    | deadlock => simp [run, run_stuck]

theorem draw_down_deletes (env : WaitEnv) (h : Nat) (s : Sess) :
    deletes h (apple_utdm_draw_down env h s).2 = deletes h s.2 := by
  rw [draw_down_snd]
  by_cases hr : s.1.submitted.filter env.hung = []
  · simp [deletes, hr, List.count_append]
  · simp [deletes, hr, List.count_append]

theorem alive_store {w : World} {h : Nat} {dev : usb_apple_utdm} {n : Nat}
    (h1 : w.intfdata = some h) (h2 : w.heap[h]? = some dev) (hn : deletes h w.log = n)
    (dev1 : usb_apple_utdm) (evs : List Event) (m : Bool)
    (hl : dev1.freed = false) (hk : dev1.kref = 1) (hm : dev1.io_mutex = m)
    (hev : deletes h evs = 0) : Alive ((w.store h dev1).emit evs) h n m := by
  have hlt := heap_lt_of_get h2
  refine ⟨dev1, ?_, ?_, hl, hk, hm, ?_⟩
  · simpa [World.store, World.emit] using h1
  · simp [World.store, World.emit, hlt]
  · simp only [deletes] at hev hn ⊢
    simp [World.store, World.emit, List.count_append, hev, hn]

theorem suspend_alive {w : World} {h n : Nat} (env : WaitEnv) (ha : Alive w h n false) :
    (apple_utdm_suspend env w).2 = .returned 0 ∧
    Alive (apple_utdm_suspend env w).1 h n false := by
  obtain ⟨dev, h1, h2, h3, h4, h5, h6⟩ := ha
  rw [suspend_bound h1 h2 h3]
  refine ⟨rfl, alive_store h1 h2 h6 _ _ false h3 h4 h5 ?_⟩
  rw [draw_down_deletes]
  rfl

theorem pre_reset_alive {w : World} {h n : Nat} (env : WaitEnv) (ha : Alive w h n false) :
    (apple_utdm_pre_reset env w).2 = .returned 0 ∧
    Alive (apple_utdm_pre_reset env w).1 h n true := by
  obtain ⟨dev, h1, h2, h3, h4, h5, h6⟩ := ha
  rw [pre_reset_bound h1 h2 h3 h5]
  refine ⟨rfl, alive_store h1 h2 h6 _ _ true h3 h4 rfl ?_⟩
  rw [draw_down_deletes]
  rfl

theorem post_reset_alive {w : World} {h n : Nat} {m : Bool} (ha : Alive w h n m) :
    (apple_utdm_post_reset w).2 = .returned 0 ∧
    Alive (apple_utdm_post_reset w).1 h n false := by
  obtain ⟨dev, h1, h2, h3, h4, _, h6⟩ := ha
  rw [post_reset_bound h1 h2 h3]
  exact ⟨rfl, alive_store h1 h2 h6 _ _ false h3 h4 rfl rfl⟩

theorem disconnect_alive {w : World} {h n : Nat} (ha : Alive w h n false) :
    (apple_utdm_disconnect w).2 = .returned 0 ∧
    (∃ dev, (apple_utdm_disconnect w).1.heap[h]? = some dev ∧ dev.kref = 0 ∧
      dev.freed = true) ∧
    deletes h (apple_utdm_disconnect w).1.log = n + 1 := by
  obtain ⟨dev, h1, h2, h3, h4, h5, h6⟩ := ha
  have hlt := heap_lt_of_get h2
  rw [disconnect_live h1 h2 h3 h5, kref_put_last _ _ _ (by simpa using h4)]
  simp only [deletes] at h6
  refine ⟨rfl, ?_, ?_⟩
  · simp [World.store, World.emit, hlt]
  · simp [deletes, World.store, World.emit, List.count_append, h6]

theorem probe_alive (env : ProbeEnv) (w : World)
    (hz : env.kzalloc_ok = true) (hf : env.find_retval = 0)
    (hm : env.kmalloc_ok = true) (hu : env.usb_alloc_urb_ok = true) :
    (apple_utdm_probe env w).2 = .returned 0 ∧
    Alive (apple_utdm_probe env w).1 w.heap.length (deletes w.heap.length w.log) false := by
  refine ⟨by simp [apple_utdm_probe, hz, hf, hm, hu], ?_⟩
  simp [Alive, apple_utdm_probe, hz, hf, hm, hu, kzalloc, deletes, List.count_append]

/-- Within one phase started with the mutex free, every callback returns and
the session stays alive with no destructor run; the phase ends with the mutex
free again. -/
theorem phase_alive (p : Phase) {w : World} {h n : Nat} (r0 : Int)
    (ha : Alive w h n false) :
    (∀ pre post, p.hooks = pre ++ post →
      (∃ r, (run pre (w, .returned r0)).2 = .returned r) ∧
      ∃ m, Alive (run pre (w, .returned r0)).1 h n m) ∧
    (∃ r, (run p.hooks (w, .returned r0)).2 = .returned r) ∧
    Alive (run p.hooks (w, .returned r0)).1 h n false := by
  cases p with
  | suspend env =>
    have hs := suspend_alive env ha
    refine ⟨?_, ⟨0, hs.1⟩, hs.2⟩
    intro pre post hpp
    rcases pre with _ | ⟨k1, pre1⟩
    · exact ⟨⟨r0, rfl⟩, false, ha⟩
    · simp only [Phase.hooks, List.cons_append, List.cons.injEq] at hpp
      obtain ⟨hk, hrest⟩ := hpp
      have hnil : pre1 = [] := by
        cases pre1 with
        | nil => rfl
        | cons _ _ => simp at hrest
      subst hnil
      subst hk
      exact ⟨⟨0, hs.1⟩, false, hs.2⟩
  | resume =>
    refine ⟨?_, ⟨0, rfl⟩, ha⟩
    intro pre post hpp
    rcases pre with _ | ⟨k1, pre1⟩
    · exact ⟨⟨r0, rfl⟩, false, ha⟩
    · simp only [Phase.hooks, List.cons_append, List.cons.injEq] at hpp
      obtain ⟨hk, hrest⟩ := hpp
      have hnil : pre1 = [] := by
        cases pre1 with
        | nil => rfl
        | cons _ _ => simp at hrest
      subst hnil
      subst hk
      exact ⟨⟨0, rfl⟩, false, ha⟩
  | reset env =>
    have h1 := pre_reset_alive env ha
    have h2 := post_reset_alive h1.2
    have hrun1 : run [Hook.pre_reset env] (w, .returned r0) = apple_utdm_pre_reset env w := rfl
    have hrun2 : run [Hook.pre_reset env, Hook.post_reset] (w, .returned r0)
        = apple_utdm_post_reset (apple_utdm_pre_reset env w).1 := by
      have : apple_utdm_pre_reset env w = ((apple_utdm_pre_reset env w).1, .returned 0) := by
        rw [← h1.1]
      show run [Hook.post_reset] (apple_utdm_pre_reset env w) = _
      rw [this]
      rfl
    refine ⟨?_, ⟨0, by rw [Phase.hooks, hrun2]; exact h2.1⟩, by
      rw [Phase.hooks, hrun2]; exact h2.2⟩
    intro pre post hpp
    rcases pre with _ | ⟨k1, _ | ⟨k2, pre2⟩⟩
    · exact ⟨⟨r0, rfl⟩, false, ha⟩
    · simp only [Phase.hooks, List.cons_append, List.cons.injEq, List.nil_append] at hpp
      obtain ⟨hk, _⟩ := hpp
      subst hk
      rw [hrun1]
      exact ⟨⟨0, h1.1⟩, true, h1.2⟩
    · simp only [Phase.hooks, List.cons_append, List.cons.injEq] at hpp
      obtain ⟨hk1, hk2, hrest⟩ := hpp
      have hnil : pre2 = [] := by
        cases pre2 with
        | nil => rfl
        | cons _ _ => simp at hrest
      subst hnil
      subst hk1
      subst hk2
      rw [hrun2]
      exact ⟨⟨0, h2.1⟩, false, h2.2⟩

theorem phases_alive {h n : Nat} (ps : List Phase) : ∀ (w : World) (r0 : Int),
    Alive w h n false →
    (∀ pre post, hooksOf ps = pre ++ post →
      (∃ r, (run pre (w, .returned r0)).2 = .returned r) ∧
      ∃ m, Alive (run pre (w, .returned r0)).1 h n m) ∧
    (∃ r, (run (hooksOf ps) (w, .returned r0)).2 = .returned r) ∧
    Alive (run (hooksOf ps) (w, .returned r0)).1 h n false := by
  induction ps with
  | nil =>
    intro w r0 ha
    refine ⟨?_, ⟨r0, rfl⟩, ha⟩
    intro pre post hpp
    have hnil : pre = [] := by
      cases pre with
      | nil => rfl
      | cons _ _ => simp [hooksOf] at hpp
    subst hnil
    exact ⟨⟨r0, rfl⟩, false, ha⟩
  | cons p ps ih =>
    intro w r0 ha
    obtain ⟨hin, ⟨r1, hret⟩, hend⟩ := phase_alive p r0 ha
    have hmid : run p.hooks (w, .returned r0)
        = ((run p.hooks (w, .returned r0)).1, .returned r1) := by
      rw [← hret]
    obtain ⟨ihin, ihret, ihend⟩ := ih (run p.hooks (w, .returned r0)).1 r1 hend
    refine ⟨?_, ?_, ?_⟩
    · intro pre post hpp
      simp only [hooksOf] at hpp
      rcases List.append_eq_append_iff.mp hpp with ⟨a1, hpre, hrest⟩ | ⟨c1, hph, _⟩
      · rw [hpre, run_append, hmid]
        exact ihin a1 post hrest
      · exact hin pre c1 hph
    · simp only [hooksOf]
      rw [run_append, hmid]
      exact ihret
    · simp only [hooksOf]
      rw [run_append, hmid]
      exact ihend

/-! ## C5: the destructor runs once, at detach -/

/-- C5: take a successful attach, then any finite sequence of suspends, resumes
and resets (each `pre_reset` followed by its `post_reset`), then one detach.
After the attach and after every later callback before the detach, the callback
has returned, the session has count 1 and is not destroyed, and the destructor
has not run on it.  The detach returns, takes the count from 1 to 0 and runs
the destructor: over the whole trace `apple_utdm_delete` runs exactly once. -/
theorem destructor_runs_once_at_detach (penv : ProbeEnv) (ps : List Phase) (w : World)
    (hz : penv.kzalloc_ok = true) (hf : penv.find_retval = 0)
    (hm : penv.kmalloc_ok = true) (hu : penv.usb_alloc_urb_ok = true) :
    (∀ pre post, hooksOf ps = pre ++ post →
      (∃ r, (exec (.probe penv :: pre) w).2 = .returned r) ∧
      (∃ dev, (exec (.probe penv :: pre) w).1.heap[w.heap.length]? = some dev ∧
        dev.kref = 1 ∧ dev.freed = false) ∧
      deletes w.heap.length (exec (.probe penv :: pre) w).1.log
        = deletes w.heap.length w.log) ∧
    (exec (.probe penv :: (hooksOf ps ++ [.disconnect])) w).2 = .returned 0 ∧
    (∃ dev, (exec (.probe penv :: (hooksOf ps ++ [.disconnect])) w).1.heap[w.heap.length]?
        = some dev ∧ dev.kref = 0 ∧ dev.freed = true) ∧
    deletes w.heap.length (exec (.probe penv :: (hooksOf ps ++ [.disconnect])) w).1.log
      = deletes w.heap.length w.log + 1 := by
  obtain ⟨hp0, hpa⟩ := probe_alive penv w hz hf hm hu
  have hstart : ∀ ks, exec (.probe penv :: ks) w
      = run ks ((apple_utdm_probe penv w).1, .returned 0) := by
    intro ks
    show run ks (apple_utdm_probe penv w) = _
    rw [← hp0]
  obtain ⟨hin, ⟨r1, hret⟩, hend⟩ := phases_alive ps (apple_utdm_probe penv w).1 0 hpa
  refine ⟨?_, ?_⟩
  · intro pre post hpp
    rw [hstart]
    obtain ⟨hr, m, dev, _, h2, h3, h4, _, h6⟩ := hin pre post hpp
    exact ⟨hr, ⟨dev, h2, h4, h3⟩, h6⟩
  · rw [hstart, run_append]
    have hmid : run (hooksOf ps) ((apple_utdm_probe penv w).1, .returned 0)
        = ((run (hooksOf ps) ((apple_utdm_probe penv w).1, .returned 0)).1, .returned r1) := by
      rw [← hret]
    rw [hmid]
    exact disconnect_alive hend

/-- Witness for C5: attach, suspend, reset, resume, detach in the empty
world. -/
theorem destructor_runs_once_at_detach_witness :
    deletes 0 (exec (.probe ⟨true, 0, ⟨129, 512⟩, ⟨2, 512⟩, true, true, 0⟩ ::
        (hooksOf [.suspend ⟨fun _ => false, 1⟩, .reset ⟨fun _ => true, 0⟩, .resume]
          ++ [.disconnect])) ⟨[], none, []⟩).1.log = 0 + 1 :=
  (destructor_runs_once_at_detach ⟨true, 0, ⟨129, 512⟩, ⟨2, 512⟩, true, true, 0⟩
    [.suspend ⟨fun _ => false, 1⟩, .reset ⟨fun _ => true, 0⟩, .resume] ⟨[], none, []⟩
    rfl rfl rfl rfl).2.2.2

/-! ## C10: lock balance of the reset callbacks -/

end AppleUtdm
